import Mathlib

/-!
Shallow embedding of the `CoopEscrow` and `ProjectRegistry` Solidity contracts
(src/hardhat/contracts/CoopEscrow.sol) and proofs about them.

Addresses are modelled as `Nat` (0 is the zero address), token amounts and
timestamps as `Nat` (Solidity 0.8 arithmetic reverts on overflow, so no
wrap-around occurs in the source; the claims under study do not depend on the
2^256 bound). Each state-changing entry point returns
`Except EscrowError (EscrowState × List Act)`: on success the new state
together with the ordered list of state writes and external token transfers the
body performs, in source order; on revert the error, the state being unchanged
(Solidity revert semantics). `block.timestamp` is passed explicitly as `now`.
-/

abbrev Addr := Nat

/-- Pointwise update of a map, modelling a Solidity mapping write. -/
def upd {α β : Type} [DecidableEq α] (f : α → β) (a : α) (v : β) : α → β :=
  fun x => if x = a then v else f x

/-- The custom errors declared by `CoopEscrow` (plus `GenericRevert` for the
bare `revert()` in `claimRefund`). -/
inductive EscrowError where
  | InvalidParams
  | AlreadyClosed
  | PastDeadline
  | NotCreator
  | NotClosed
  | SuccessNoRefund
  | NoDeposit
  | BelowMinimum
  | ExceedsTotal
  | BelowGoal
  | GenericRevert
deriving DecidableEq, Repr

/-- The observable actions a contract body performs, in source order:
external token movements and writes to the contract's storage fields. -/
inductive Act where
  | transferFrom (src : Addr) (amount : Nat)
  | transfer (dst : Addr) (amount : Nat)
  | writeDeposits
  | writeTotal
  | writeClosed
  | writeFinalAmount
  | writeSuccess
  | writeRefundPool
  | writeRefundClaimed
deriving DecidableEq, Repr

/-- The immutable configuration of a `CoopEscrow` instance, fixed by the
constructor (`token`, `creator = msg.sender`, `beneficiary`, `goal`,
`deadline`, `minContribution`). -/
structure EscrowConfig where
  token : Addr
  creator : Addr
  beneficiary : Addr
  goal : Nat
  deadline : Nat
  minContribution : Nat
deriving DecidableEq, Repr

/-- The mutable storage of a `CoopEscrow` instance. -/
structure EscrowState where
  closed : Bool
  success : Bool
  total : Nat
  finalAmount : Nat
  refundPool : Nat
  deposits : Addr → Nat
  refundClaimed : Addr → Bool

/-- `CoopEscrow`'s constructor: validates parameters, then, when a creator
contribution is given, pulls it in and records it as the creator's deposit.
`cc` is `_creatorContribution`; `cfg.creator` plays `msg.sender`. -/
def mkEscrow (cfg : EscrowConfig) (now : Nat) (cc : Nat) :
    Except EscrowError (EscrowState × List Act) :=
  if cfg.token = 0 ∨ cfg.beneficiary = 0 then .error .InvalidParams
  else if cfg.goal = 0 ∨ cfg.deadline ≤ now then .error .InvalidParams
  else if 0 < cfg.minContribution ∧ 0 < cc ∧ cc < cfg.minContribution then
    .error .InvalidParams
  else if 0 < cc then
    .ok ({ closed := false, success := false, total := cc, finalAmount := 0,
           refundPool := 0, deposits := upd (fun _ => 0) cfg.creator cc,
           refundClaimed := fun _ => false },
         [.transferFrom cfg.creator cc, .writeDeposits, .writeTotal])
  else
    .ok ({ closed := false, success := false, total := 0, finalAmount := 0,
           refundPool := 0, deposits := fun _ => 0,
           refundClaimed := fun _ => false },
         [])

/-- `contribute(amount)` called by `sender` at time `now`. -/
def contribute (cfg : EscrowConfig) (sender : Addr) (now : Nat) (amount : Nat)
    (s : EscrowState) : Except EscrowError (EscrowState × List Act) :=
  if s.closed then .error .AlreadyClosed
  else if cfg.deadline < now then .error .PastDeadline
  else if amount = 0 then .error .InvalidParams
  else if 0 < cfg.minContribution ∧ amount < cfg.minContribution then
    .error .BelowMinimum
  else
    .ok ({ s with
           deposits := upd s.deposits sender (s.deposits sender + amount),
           total := s.total + amount },
         [.transferFrom sender amount, .writeDeposits, .writeTotal])

/-- `finalize(_finalAmount)` called by `sender`. -/
def finalize (cfg : EscrowConfig) (sender : Addr) (fa : Nat)
    (s : EscrowState) : Except EscrowError (EscrowState × List Act) :=
  if sender ≠ cfg.creator then .error .NotCreator
  else if s.closed then .error .AlreadyClosed
  else if s.total < fa then .error .ExceedsTotal
  else if fa < cfg.goal then .error .BelowGoal
  else
    .ok ({ s with
           closed := true, finalAmount := fa, success := true,
           refundPool := s.total - fa },
         [.writeClosed, .writeFinalAmount, .writeSuccess,
          .transfer cfg.beneficiary fa, .writeRefundPool])

/-- The `refundAmount` local computed inside `claimRefund`:
`(userDeposit * refundPool) / total` when both `refundPool` and `total` are
positive, `0` otherwise. -/
def claimAmount (s : EscrowState) (sender : Addr) : Nat :=
  if 0 < s.refundPool ∧ 0 < s.total then
    s.deposits sender * s.refundPool / s.total
  else 0

/-- `claimRefund()` called by `sender`. -/
def claimRefund (sender : Addr) (s : EscrowState) :
    Except EscrowError (EscrowState × List Act) :=
  if ¬s.closed then .error .NotClosed
  else if ¬s.success then .error .GenericRevert
  else if s.refundClaimed sender then .error .NoDeposit
  else if s.deposits sender = 0 then .error .NoDeposit
  else
    .ok ({ s with refundClaimed := upd s.refundClaimed sender true },
         .writeRefundClaimed ::
           (if 0 < claimAmount s sender then
              [.transfer sender (claimAmount s sender)]
            else []))

/-- Legacy `refund()` (full refund for unsuccessful projects) called by
`sender`. -/
def refund (sender : Addr) (s : EscrowState) :
    Except EscrowError (EscrowState × List Act) :=
  if ¬s.closed then .error .NotClosed
  else if s.success then .error .SuccessNoRefund
  else if s.deposits sender = 0 then .error .NoDeposit
  else
    .ok ({ s with deposits := upd s.deposits sender 0 },
         [.writeDeposits, .transfer sender (s.deposits sender)])

/-- States reachable by deploying an instance and running any sequence of the
public state-changing entry points, with arbitrary callers, call arguments and
timestamps. -/
inductive Reachable (cfg : EscrowConfig) : EscrowState → Prop where
  | init (now cc : Nat) (s : EscrowState) (acts : List Act)
      (h : mkEscrow cfg now cc = .ok (s, acts)) : Reachable cfg s
  | contrib (sender now amount : Nat) (s s' : EscrowState) (acts : List Act)
      (hr : Reachable cfg s)
      (h : contribute cfg sender now amount s = .ok (s', acts)) :
      Reachable cfg s'
  | final (sender fa : Nat) (s s' : EscrowState) (acts : List Act)
      (hr : Reachable cfg s)
      (h : finalize cfg sender fa s = .ok (s', acts)) : Reachable cfg s'
  | claim (sender : Nat) (s s' : EscrowState) (acts : List Act)
      (hr : Reachable cfg s)
      (h : claimRefund sender s = .ok (s', acts)) : Reachable cfg s'
  | ref (sender : Nat) (s s' : EscrowState) (acts : List Act)
      (hr : Reachable cfg s)
      (h : refund sender s = .ok (s', acts)) : Reachable cfg s'

/-- A `ProjectRegistry` entry (the `Project` struct). -/
structure Project where
  creator : Addr
  escrow : Addr
  ensName : String
  metaURI : String
deriving DecidableEq, Repr

/-- The mutable storage of `ProjectRegistry`. `projects` models the Solidity
mapping: unset slots hold the all-zero struct. -/
structure RegistryState where
  nextId : Nat
  projects : Nat → Project

/-- `ProjectRegistry`'s storage right after deployment: `nextId = 0`, every
mapping slot zeroed. -/
def registryInit : RegistryState :=
  { nextId := 0, projects := fun _ => ⟨0, 0, "", ""⟩ }

/-- `createProject(ensName, escrow, metaURI)` called by `sender`; returns the
assigned id (`++nextId`) and the new storage. -/
def createProject (sender : Addr) (ensName : String) (escrow : Addr)
    (metaURI : String) (st : RegistryState) :
    Except String (Nat × RegistryState) :=
  if escrow = 0 then .error "escrow=0"
  else
    .ok (st.nextId + 1,
         { nextId := st.nextId + 1,
           projects := upd st.projects (st.nextId + 1)
             ⟨sender, escrow, ensName, metaURI⟩ })

/-- `getProject(id)`: the stored struct, or `"not found"` when its escrow
field is zero. -/
def getProject (id : Nat) (st : RegistryState) : Except String Project :=
  if (st.projects id).escrow = 0 then .error "not found"
  else .ok (st.projects id)

/-- One successful `createProject` call, as a step relation on registry
storage. -/
def RegistryStep (st st' : RegistryState) : Prop :=
  ∃ sender ensName escrow metaURI id,
    createProject sender ensName escrow metaURI st = .ok (id, st')

/-- Any number of successful `createProject` calls. -/
def RegistryReaches : RegistryState → RegistryState → Prop :=
  Relation.ReflTransGen RegistryStep

/-- Registry storage reachable from deployment. -/
def RegistryReachable (st : RegistryState) : Prop :=
  RegistryReaches registryInit st

/-- Whether an action is an external token movement (as opposed to a storage
write). -/
def Act.isTransfer : Act → Bool
  | .transferFrom _ _ => true
  | .transfer _ _ => true
  | _ => false

/-- An action trace applies every storage write strictly before every external
transfer: after the leading writes, only transfers remain. -/
def writesBeforeTransfers (l : List Act) : Bool :=
  (l.dropWhile (fun a => !a.isTransfer)).all Act.isTransfer

theorem mkEscrow_ok_elim {cfg : EscrowConfig} {now cc : Nat}
    {s : EscrowState} {acts : List Act}
    (h : mkEscrow cfg now cc = .ok (s, acts)) :
    s.closed = false ∧ s.success = false ∧
    ((0 < cc ∧ s.total = cc ∧
        s.deposits = upd (fun _ => 0) cfg.creator cc) ∨
     (cc = 0 ∧ s.total = 0 ∧ s.deposits = fun _ => 0)) := by
  rw [mkEscrow] at h
  by_cases h1 : cfg.token = 0 ∨ cfg.beneficiary = 0
  · rw [if_pos h1] at h; exact absurd h (by simp)
  rw [if_neg h1] at h
  by_cases h2 : cfg.goal = 0 ∨ cfg.deadline ≤ now
  · rw [if_pos h2] at h; exact absurd h (by simp)
  rw [if_neg h2] at h
  by_cases h3 : 0 < cfg.minContribution ∧ 0 < cc ∧ cc < cfg.minContribution
  · rw [if_pos h3] at h; exact absurd h (by simp)
  rw [if_neg h3] at h
  by_cases h4 : 0 < cc
  · rw [if_pos h4] at h
    injection h with h
    injection h with hs hacts
    subst hs
    exact ⟨rfl, rfl, Or.inl ⟨h4, rfl, rfl⟩⟩
  · rw [if_neg h4] at h
    injection h with h
    injection h with hs hacts
    subst hs
    exact ⟨rfl, rfl, Or.inr ⟨by omega, rfl, rfl⟩⟩

theorem contribute_ok_elim {cfg : EscrowConfig} {sender now amount : Nat}
    {s s' : EscrowState} {acts : List Act}
    (h : contribute cfg sender now amount s = .ok (s', acts)) :
    s.closed = false ∧ now ≤ cfg.deadline ∧ 0 < amount ∧
    (cfg.minContribution = 0 ∨ cfg.minContribution ≤ amount) ∧
    s' = { s with
           deposits := upd s.deposits sender (s.deposits sender + amount),
           total := s.total + amount } ∧
    acts = [Act.transferFrom sender amount, Act.writeDeposits,
            Act.writeTotal] := by
  rw [contribute] at h
  by_cases h1 : s.closed = true
  · rw [if_pos h1] at h; exact absurd h (by simp)
  rw [if_neg h1] at h
  by_cases h2 : cfg.deadline < now
  · rw [if_pos h2] at h; exact absurd h (by simp)
  rw [if_neg h2] at h
  by_cases h3 : amount = 0
  · rw [if_pos h3] at h; exact absurd h (by simp)
  rw [if_neg h3] at h
  by_cases h4 : 0 < cfg.minContribution ∧ amount < cfg.minContribution
  · rw [if_pos h4] at h; exact absurd h (by simp)
  rw [if_neg h4] at h
  injection h with h
  injection h with hs hacts
  exact ⟨by simpa using h1, by omega, by omega, by omega, hs.symm, hacts.symm⟩

theorem finalize_ok_elim {cfg : EscrowConfig} {sender fa : Nat}
    {s s' : EscrowState} {acts : List Act}
    (h : finalize cfg sender fa s = .ok (s', acts)) :
    sender = cfg.creator ∧ s.closed = false ∧ fa ≤ s.total ∧ cfg.goal ≤ fa ∧
    s' = { s with
           closed := true, finalAmount := fa, success := true,
           refundPool := s.total - fa } ∧
    acts = [Act.writeClosed, Act.writeFinalAmount, Act.writeSuccess,
            Act.transfer cfg.beneficiary fa, Act.writeRefundPool] := by
  rw [finalize] at h
  by_cases h1 : sender ≠ cfg.creator
  · rw [if_pos h1] at h; exact absurd h (by simp)
  rw [if_neg h1] at h
  by_cases h2 : s.closed = true
  · rw [if_pos h2] at h; exact absurd h (by simp)
  rw [if_neg h2] at h
  by_cases h3 : s.total < fa
  · rw [if_pos h3] at h; exact absurd h (by simp)
  rw [if_neg h3] at h
  by_cases h4 : fa < cfg.goal
  · rw [if_pos h4] at h; exact absurd h (by simp)
  rw [if_neg h4] at h
  injection h with h
  injection h with hs hacts
  exact ⟨by tauto, by simpa using h2, by omega, by omega, hs.symm, hacts.symm⟩

theorem claimRefund_ok_elim {sender : Nat} {s s' : EscrowState}
    {acts : List Act} (h : claimRefund sender s = .ok (s', acts)) :
    s.closed = true ∧ s.success = true ∧ s.refundClaimed sender = false ∧
    0 < s.deposits sender ∧
    s' = { s with refundClaimed := upd s.refundClaimed sender true } ∧
    acts = Act.writeRefundClaimed ::
           (if 0 < claimAmount s sender then
              [Act.transfer sender (claimAmount s sender)]
            else []) := by
  rw [claimRefund] at h
  by_cases h1 : ¬s.closed = true
  · rw [if_pos h1] at h; exact absurd h (by simp)
  rw [if_neg h1] at h
  by_cases h2 : ¬s.success = true
  · rw [if_pos h2] at h; exact absurd h (by simp)
  rw [if_neg h2] at h
  by_cases h3 : s.refundClaimed sender = true
  · rw [if_pos h3] at h; exact absurd h (by simp)
  rw [if_neg h3] at h
  by_cases h4 : s.deposits sender = 0
  · rw [if_pos h4] at h; exact absurd h (by simp)
  rw [if_neg h4] at h
  injection h with h
  injection h with hs hacts
  exact ⟨by simpa using h1, by simpa using h2, by simpa using h3,
    by omega, hs.symm, hacts.symm⟩

theorem refund_ok_elim {sender : Nat} {s s' : EscrowState}
    {acts : List Act} (h : refund sender s = .ok (s', acts)) :
    s.closed = true ∧ s.success = false ∧ 0 < s.deposits sender ∧
    s' = { s with deposits := upd s.deposits sender 0 } ∧
    acts = [Act.writeDeposits, Act.transfer sender (s.deposits sender)] := by
  rw [refund] at h
  by_cases h1 : ¬s.closed = true
  · rw [if_pos h1] at h; exact absurd h (by simp)
  rw [if_neg h1] at h
  by_cases h2 : s.success = true
  · rw [if_pos h2] at h; exact absurd h (by simp)
  rw [if_neg h2] at h
  by_cases h3 : s.deposits sender = 0
  · rw [if_pos h3] at h; exact absurd h (by simp)
  rw [if_neg h3] at h
  injection h with h
  injection h with hs hacts
  exact ⟨by simpa using h1, by simpa using h2, by omega, hs.symm, hacts.symm⟩

theorem sum_map_upd_add (f : Addr → Nat) (l : List Addr) (a : Addr) (amt : Nat)
    (hnd : l.Nodup) (ha : a ∈ l) :
    (l.map (upd f a (f a + amt))).sum = (l.map f).sum + amt := by
  induction l with
  | nil => cases ha
  | cons b t ih =>
    rcases List.nodup_cons.mp hnd with ⟨hbt, hndt⟩
    rcases List.mem_cons.mp ha with h | h
    · subst h
      have ht : t.map (upd f a (f a + amt)) = t.map f := by
        apply List.map_congr_left
        intro x hx
        have hxa : x ≠ a := fun e => hbt (e ▸ hx)
        simp [upd, hxa]
      simp [upd, ht]
      omega
    · have hba : b ≠ a := by rintro rfl; exact hbt h
      simp only [List.map_cons, List.sum_cons, ih hndt h]
      have hb : upd f a (f a + amt) b = f b := by simp [upd, hba]
      rw [hb]
      omega

theorem sum_cover_eq (f : Addr → Nat) (l₁ l₂ : List Addr)
    (h₁ : l₁.Nodup) (h₂ : l₂.Nodup)
    (c₁ : ∀ a, a ∉ l₁ → f a = 0) (c₂ : ∀ a, a ∉ l₂ → f a = 0) :
    (l₁.map f).sum = (l₂.map f).sum := by
  rw [← List.sum_toFinset f h₁, ← List.sum_toFinset f h₂]
  have e₁ : l₁.toFinset.sum f = (l₁.toFinset ∪ l₂.toFinset).sum f := by
    apply Finset.sum_subset Finset.subset_union_left
    intro x _ hx
    exact c₁ x (by simpa using hx)
  have e₂ : l₂.toFinset.sum f = (l₁.toFinset ∪ l₂.toFinset).sum f := by
    apply Finset.sum_subset Finset.subset_union_right
    intro x _ hx
    exact c₂ x (by simpa using hx)
  rw [e₁, e₂]

theorem sum_le_cover (f : Addr → Nat) (l cov : List Addr)
    (hl : l.Nodup) (hc : cov.Nodup) (hcov : ∀ a, a ∉ cov → f a = 0) :
    (l.map f).sum ≤ (cov.map f).sum := by
  rw [← List.sum_toFinset f hl, ← List.sum_toFinset f hc]
  have e : cov.toFinset.sum f = (l.toFinset ∪ cov.toFinset).sum f := by
    apply Finset.sum_subset Finset.subset_union_right
    intro x _ hx
    exact hcov x (by simpa using hx)
  rw [e]
  exact Finset.sum_le_sum_of_subset Finset.subset_union_left

/-- The key internal invariant of `CoopEscrow`: a closed instance is a
successful one, and `total` is the sum of `deposits` over any finite list
containing the support of `deposits`. -/
def EscrowInv (s : EscrowState) : Prop :=
  (s.closed = true → s.success = true) ∧
  ∃ l : List Addr, l.Nodup ∧ (∀ a, a ∉ l → s.deposits a = 0) ∧
    s.total = (l.map s.deposits).sum

theorem reachable_inv {cfg : EscrowConfig} {s : EscrowState}
    (h : Reachable cfg s) : EscrowInv s := by
  induction h with
  | init now cc s acts h =>
    obtain ⟨hc, hs, hcase⟩ := mkEscrow_ok_elim h
    refine ⟨fun hcl => absurd (hc ▸ hcl) (by simp), ?_⟩
    rcases hcase with ⟨hpos, ht, hd⟩ | ⟨hz, ht, hd⟩
    · refine ⟨[cfg.creator], by simp, ?_, ?_⟩
      · intro a ha
        have hane : a ≠ cfg.creator := by simpa using ha
        simp [hd, upd, hane]
      · simp [ht, hd, upd]
    · exact ⟨[], by simp, fun a _ => by simp [hd], by simp [ht]⟩
  | contrib sender now amount s s' acts hr h ih =>
    obtain ⟨hcl, _, _, _, hs', hacts⟩ := contribute_ok_elim h
    obtain ⟨hps, l, hnd, hcov, hsum⟩ := ih
    subst hs'
    refine ⟨fun hc => hps hc, ?_⟩
    by_cases hmem : sender ∈ l
    · refine ⟨l, hnd, ?_, ?_⟩
      · intro a ha
        have hne : a ≠ sender := fun e => ha (e ▸ hmem)
        simpa [upd, hne] using hcov a ha
      · show s.total + amount = _
        rw [show (({ s with
            deposits := upd s.deposits sender (s.deposits sender + amount),
            total := s.total + amount } : EscrowState)).deposits =
            upd s.deposits sender (s.deposits sender + amount) from rfl]
        rw [sum_map_upd_add s.deposits l sender amount hnd hmem]
        omega
    · refine ⟨sender :: l, List.nodup_cons.mpr ⟨hmem, hnd⟩, ?_, ?_⟩
      · intro a ha
        rw [List.mem_cons] at ha
        push_neg at ha
        simpa [upd, ha.1] using hcov a ha.2
      · have hz : s.deposits sender = 0 := hcov sender hmem
        have hl : l.map (upd s.deposits sender (s.deposits sender + amount)) =
            l.map s.deposits := by
          apply List.map_congr_left
          intro x hx
          have hxs : x ≠ sender := fun e => hmem (e ▸ hx)
          simp [upd, hxs]
        show s.total + amount = _
        simp only [List.map_cons, List.sum_cons]
        rw [hl]
        have hself : upd s.deposits sender (s.deposits sender + amount) sender
            = s.deposits sender + amount := by simp [upd]
        rw [hself, hz, hsum]
        omega
  | final sender fa s s' acts hr h ih =>
    obtain ⟨_, _, _, _, hs', hacts⟩ := finalize_ok_elim h
    obtain ⟨_, l, hnd, hcov, hsum⟩ := ih
    subst hs'
    exact ⟨fun _ => rfl, l, hnd, hcov, hsum⟩
  | claim sender s s' acts hr h ih =>
    obtain ⟨_, _, _, _, hs', hacts⟩ := claimRefund_ok_elim h
    obtain ⟨hps, l, hnd, hcov, hsum⟩ := ih
    subst hs'
    exact ⟨fun hc => hps hc, l, hnd, hcov, hsum⟩
  | ref sender s s' acts hr h ih =>
    obtain ⟨hcl, hsc, _, _⟩ := refund_ok_elim h
    exact absurd (ih.1 hcl) (by simp [hsc])

theorem div_add_div_le_add_div (a b c : Nat) : a / c + b / c ≤ (a + b) / c := by
  rcases Nat.eq_zero_or_pos c with hc | hc
  · simp [hc]
  · rw [Nat.le_div_iff_mul_le hc, Nat.add_mul]
    exact Nat.add_le_add (Nat.div_mul_le_self a c) (Nat.div_mul_le_self b c)

theorem sum_div_le (l : List Nat) (R T : Nat) :
    (l.map (fun d => d * R / T)).sum ≤ l.sum * R / T := by
  induction l with
  | nil => simp
  | cons d t ih =>
    simp only [List.map_cons, List.sum_cons]
    calc d * R / T + (t.map (fun x => x * R / T)).sum
        ≤ d * R / T + t.sum * R / T := Nat.add_le_add_left ih _
      _ ≤ (d * R + t.sum * R) / T := div_add_div_le_add_div _ _ _
      _ = (d + t.sum) * R / T := by rw [Nat.add_mul]

/-- The guarded `refundAmount` computation in `claimRefund` coincides with the
plain floor division `deposit * refundPool / total` (in `Nat`, division by
zero is zero, so the `refundPool > 0 && total > 0` guard is redundant). -/
theorem claimAmount_eq (s : EscrowState) (x : Addr) :
    claimAmount s x = s.deposits x * s.refundPool / s.total := by
  rw [claimAmount]
  by_cases h : 0 < s.refundPool ∧ 0 < s.total
  · rw [if_pos h]
  · rw [if_neg h]
    push_neg at h
    rcases Nat.eq_zero_or_pos s.refundPool with hR | hR
    · simp [hR]
    · have hT : s.total = 0 := by omega
      simp [hT]

theorem createProject_ok_elim {sender : Addr} {ensName metaURI : String}
    {escrow : Addr} {st : RegistryState} {id : Nat} {st' : RegistryState}
    (h : createProject sender ensName escrow metaURI st = .ok (id, st')) :
    escrow ≠ 0 ∧ id = st.nextId + 1 ∧
    st' = { nextId := st.nextId + 1,
            projects := upd st.projects (st.nextId + 1)
              ⟨sender, escrow, ensName, metaURI⟩ } := by
  rw [createProject] at h
  by_cases h1 : escrow = 0
  · rw [if_pos h1] at h; exact absurd h (by simp)
  rw [if_neg h1] at h
  injection h with h
  injection h with hid hst
  exact ⟨h1, hid.symm, hst.symm⟩

theorem registryStep_preserves {st st' : RegistryState}
    (h : RegistryStep st st') :
    st'.nextId = st.nextId + 1 ∧
    ∀ j, j ≤ st.nextId → st'.projects j = st.projects j := by
  obtain ⟨sender, n, e, m, id, hc⟩ := h
  obtain ⟨hne, hid, hst⟩ := createProject_ok_elim hc
  subst hst
  refine ⟨rfl, fun j hj => ?_⟩
  show upd st.projects (st.nextId + 1) ⟨sender, e, n, m⟩ j = st.projects j
  simp only [upd]
  rw [if_neg (by omega)]

theorem registryReaches_mono {st st' : RegistryState}
    (h : RegistryReaches st st') :
    st.nextId ≤ st'.nextId ∧
    ∀ j, j ≤ st.nextId → st'.projects j = st.projects j := by
  induction h with
  | refl => exact ⟨le_rfl, fun _ _ => rfl⟩
  | tail hab hbc ih =>
    obtain ⟨he, hp⟩ := registryStep_preserves hbc
    refine ⟨by omega, fun j hj => ?_⟩
    rw [hp j (le_trans hj ih.1)]
    exact ih.2 j hj

theorem registryStep_unset {st st' : RegistryState}
    (h : RegistryStep st st')
    (hprev : ∀ i, i = 0 ∨ st.nextId < i → (st.projects i).escrow = 0) :
    ∀ i, i = 0 ∨ st'.nextId < i → (st'.projects i).escrow = 0 := by
  obtain ⟨sender, n, e, m, id, hc⟩ := h
  obtain ⟨hne, hid, hst⟩ := createProject_ok_elim hc
  subst hst
  intro i hi
  have hii : i = 0 ∨ st.nextId + 1 < i := hi
  show (upd st.projects (st.nextId + 1) ⟨sender, e, n, m⟩ i).escrow = 0
  simp only [upd]
  rw [if_neg (by omega)]
  exact hprev i (by omega)

theorem registryReachable_unset {st : RegistryState}
    (h : RegistryReachable st) :
    ∀ i, i = 0 ∨ st.nextId < i → (st.projects i).escrow = 0 := by
  unfold RegistryReachable RegistryReaches at h
  induction h with
  | refl => intro i _; rfl
  | tail hab hbc ih => exact registryStep_unset hbc ih

/-- A concrete deployment used as a witness universe: token 1, creator 2,
beneficiary 3, goal 10, deadline 100, no minimum contribution. -/
def cfgW : EscrowConfig := ⟨1, 2, 3, 10, 100, 0⟩

/-- State right after `mkEscrow cfgW` with a creator contribution of 5. -/
def sW : EscrowState :=
  { closed := false, success := false, total := 5, finalAmount := 0,
    refundPool := 0, deposits := upd (fun _ => 0) 2 5,
    refundClaimed := fun _ => false }

/-- `sW` after address 4 contributes 10 at time 50. -/
def sW2 : EscrowState :=
  { sW with
    deposits := upd sW.deposits 4 (sW.deposits 4 + 10),
    total := sW.total + 10 }

/-- `sW2` after the creator finalizes with `finalAmount = 10`
(so `refundPool = 5`). -/
def sW3 : EscrowState :=
  { sW2 with
    closed := true, finalAmount := 10, success := true,
    refundPool := sW2.total - 10 }

/-- `sW3` after address 4 claims its refund (`10 * 5 / 15 = 3`). -/
def sW4 : EscrowState :=
  { sW3 with refundClaimed := upd sW3.refundClaimed 4 true }

theorem sW_reachable : Reachable cfgW sW :=
  .init 0 5 sW [.transferFrom 2 5, .writeDeposits, .writeTotal] rfl

theorem sW2_reachable : Reachable cfgW sW2 :=
  .contrib 4 50 10 sW sW2 [.transferFrom 4 10, .writeDeposits, .writeTotal]
    sW_reachable rfl

theorem sW3_reachable : Reachable cfgW sW3 :=
  .final 2 10 sW2 sW3
    [.writeClosed, .writeFinalAmount, .writeSuccess, .transfer 3 10,
     .writeRefundPool] sW2_reachable rfl

theorem sW4_reachable : Reachable cfgW sW4 :=
  .claim 4 sW3 sW4 [.writeRefundClaimed, .transfer 4 3] sW3_reachable rfl

/-- A second deployment with a non-zero minimum contribution (5). -/
def cfgM : EscrowConfig := ⟨1, 2, 3, 10, 100, 5⟩

/-- A freshly deployed instance with no creator contribution. -/
def sM0 : EscrowState :=
  { closed := false, success := false, total := 0, finalAmount := 0,
    refundPool := 0, deposits := fun _ => 0, refundClaimed := fun _ => false }

theorem registryInit_reachable : RegistryReachable registryInit :=
  Relation.ReflTransGen.refl

/-- C2: in every state reachable by any sequence of the public operations
(creation, contribute, finalize, claimRefund, refund), the aggregate `total`
equals the sum of all per-contributor `deposits` (summed over any
duplicate-free list of addresses containing every address with a non-zero
deposit). -/
theorem C2_conservation {cfg : EscrowConfig} {s : EscrowState}
    (h : Reachable cfg s) (l : List Addr) (hnd : l.Nodup)
    (hcov : ∀ a, a ∉ l → s.deposits a = 0) :
    s.total = (l.map s.deposits).sum := by
  obtain ⟨_, l₀, hnd₀, hcov₀, hsum₀⟩ := reachable_inv h
  rw [hsum₀]
  exact sum_cover_eq s.deposits l₀ l hnd₀ hnd hcov₀ hcov

theorem C2_conservation_witness :
    sW2.total = ([2, 4].map sW2.deposits).sum :=
  C2_conservation sW2_reachable [2, 4] (by decide)
    (fun a ha => by
      simp only [List.mem_cons, List.not_mem_nil, or_false, not_or] at ha
      simp [sW2, sW, upd, ha.1, ha.2])

/-- C5: in every reachable state, `closed` implies `success` (finalize is the
only operation setting `closed` and always sets `success` with it); hence the
legacy full-refund entry point `refund()`, which requires `closed` and
`!success`, fails on every reachable state — with `NotClosed` while open and
`SuccessNoRefund` once finalized. A reverting call leaves the state unchanged
(in this embedding an error carries no state). -/
theorem C5_closed_implies_success {cfg : EscrowConfig} {s : EscrowState}
    (h : Reachable cfg s) :
    (s.closed = true → s.success = true) ∧
    ∀ sender, refund sender s =
      .error (if s.closed then EscrowError.SuccessNoRefund else .NotClosed) := by
  have hinv := reachable_inv h
  refine ⟨hinv.1, fun sender => ?_⟩
  by_cases hc : s.closed = true
  · have hs := hinv.1 hc
    rw [refund, if_neg (by simp [hc]), if_pos hs, if_pos hc]
  · rw [refund, if_pos (by simpa using hc), if_neg hc]

theorem C5_witness :
    refund 7 sW3 =
      .error (if sW3.closed then EscrowError.SuccessNoRefund else .NotClosed) :=
  (C5_closed_implies_success sW3_reachable).2 7

/-- C7: after a successful `claimRefund`, a second `claimRefund` by the same
caller always fails with `NoDeposit` (the claimed flag was just set); the
failing call leaves the state unchanged (an error carries no state in this
embedding). -/
theorem C7_no_double_claim {sender : Nat} {s s' : EscrowState}
    {acts : List Act} (h : claimRefund sender s = .ok (s', acts)) :
    claimRefund sender s' = .error .NoDeposit := by
  obtain ⟨hcl, hsc, _, _, hs', _⟩ := claimRefund_ok_elim h
  subst hs'
  rw [claimRefund, if_neg (by simp [hcl]), if_neg (by simp [hsc]),
    if_pos (by simp [upd])]

theorem C7_no_double_claim_witness : claimRefund 4 sW4 = .error .NoDeposit :=
  C7_no_double_claim
    (show claimRefund 4 sW3 =
        .ok (sW4, [Act.writeRefundClaimed, Act.transfer 4 3]) from rfl)

/-- C10: `finalize` checks the caller before the closed flag: any caller
other than the controller always receives `NotCreator`, on open and closed
instances alike (so a non-controller touching a closed instance sees
`NotCreator`, not `AlreadyClosed`). -/
theorem C10_notcreator_precedence (cfg : EscrowConfig) (sender fa : Nat)
    (s : EscrowState) (h : sender ≠ cfg.creator) :
    finalize cfg sender fa s = .error .NotCreator := by
  rw [finalize, if_pos h]

theorem C10_notcreator_precedence_witness :
    (9 : Nat) ≠ cfgW.creator ∧ sW3.closed = true ∧
    finalize cfgW 9 10 sW3 = .error .NotCreator :=
  ⟨by decide, rfl, C10_notcreator_precedence cfgW 9 10 sW3 (by decide)⟩

/-- C1 (amended): ordering of state mutations versus the external token
transfer, per entry point. `claimRefund` performs all of its storage writes
strictly before its transfer; `finalize` writes `closed`, `finalAmount` and
`success` before its transfer to the beneficiary but assigns `refundPool`
only after the transfer; `contribute` performs its inbound `transferFrom`
before updating `deposits` and `total`. (A reverting call performs no
actions; all three bodies additionally run under the `nonReentrant` guard in
the source.) -/
theorem C1_mutate_transfer_order (cfg : EscrowConfig) :
    (∀ sender s s' acts, claimRefund sender s = .ok (s', acts) →
       writesBeforeTransfers acts = true) ∧
    (∀ sender fa s s' acts, finalize cfg sender fa s = .ok (s', acts) →
       acts = [.writeClosed, .writeFinalAmount, .writeSuccess,
               .transfer cfg.beneficiary fa, .writeRefundPool]) ∧
    (∀ sender now amount s s' acts,
       contribute cfg sender now amount s = .ok (s', acts) →
       acts = [.transferFrom sender amount, .writeDeposits, .writeTotal]) := by
  refine ⟨?_, ?_, ?_⟩
  · intro sender s s' acts h
    obtain ⟨_, _, _, _, _, hacts⟩ := claimRefund_ok_elim h
    subst hacts
    by_cases h0 : 0 < claimAmount s sender
    · rw [if_pos h0]; rfl
    · rw [if_neg h0]; rfl
  · intro sender fa s s' acts h
    exact (finalize_ok_elim h).2.2.2.2.2
  · intro sender now amount s s' acts h
    exact (contribute_ok_elim h).2.2.2.2.2

theorem C1_mutate_transfer_order_witness :
    writesBeforeTransfers [Act.writeRefundClaimed, Act.transfer 4 3] = true ∧
    [Act.transferFrom 4 10, Act.writeDeposits, Act.writeTotal] =
      [Act.transferFrom 4 10, Act.writeDeposits, Act.writeTotal] :=
  ⟨(C1_mutate_transfer_order cfgW).1 4 sW3 sW4
     [Act.writeRefundClaimed, Act.transfer 4 3] rfl,
   (C1_mutate_transfer_order cfgW).2.2 4 50 10 sW sW2
     [Act.transferFrom 4 10, Act.writeDeposits, Act.writeTotal] rfl⟩

/-- C1 counterexample: a successful `contribute` performs its external
`transferFrom` before its `deposits`/`total` writes, and a successful
`finalize` assigns `refundPool` after its transfer, so the claim that each
of the three entry points applies all of its state mutations strictly
before its external transfer is false on the code. -/
theorem C1_mutate_transfer_order_counterexample :
    contribute cfgW 4 50 10 sW =
      .ok (sW2, [Act.transferFrom 4 10, Act.writeDeposits, Act.writeTotal]) ∧
    writesBeforeTransfers
      [Act.transferFrom 4 10, Act.writeDeposits, Act.writeTotal] = false ∧
    finalize cfgW 2 10 sW2 =
      .ok (sW3, [Act.writeClosed, Act.writeFinalAmount, Act.writeSuccess,
                 Act.transfer 3 10, Act.writeRefundPool]) ∧
    writesBeforeTransfers
      [Act.writeClosed, Act.writeFinalAmount, Act.writeSuccess,
       Act.transfer 3 10, Act.writeRefundPool] = false :=
  ⟨rfl, by decide, rfl, by decide⟩

/-- C3 (amended): for a `finalize` call by the controller on a not-yet-closed
instance, the `ExceedsTotal` check runs before the `BelowGoal` check:
`finalAmount > total` fails with `ExceedsTotal` (even when `finalAmount`
is also below the goal); otherwise `finalAmount < goal` fails with
`BelowGoal`; with `goal ≤ finalAmount ≤ total` it succeeds, marking the
instance closed, recording `finalAmount`, setting
`refundPool = total − finalAmount`, and no later `finalize` can ever
succeed again. -/
theorem C3_goal_enforcement (cfg : EscrowConfig) (s : EscrowState) (fa : Nat)
    (hcl : s.closed = false) :
    (s.total < fa → finalize cfg cfg.creator fa s = .error .ExceedsTotal) ∧
    (fa ≤ s.total → fa < cfg.goal →
       finalize cfg cfg.creator fa s = .error .BelowGoal) ∧
    (cfg.goal ≤ fa → fa ≤ s.total →
       ∃ s' acts, finalize cfg cfg.creator fa s = .ok (s', acts) ∧
         s'.closed = true ∧ s'.finalAmount = fa ∧ s'.success = true ∧
         s'.refundPool = s.total - fa ∧
         ∀ c fa₂ s'' acts₂, finalize cfg c fa₂ s' ≠ .ok (s'', acts₂)) := by
  refine ⟨?_, ?_, ?_⟩
  · intro h1
    rw [finalize, if_neg (by simp), if_neg (by simp [hcl]), if_pos h1]
  · intro h1 h2
    rw [finalize, if_neg (by simp), if_neg (by simp [hcl]),
      if_neg (by omega), if_pos h2]
  · intro h1 h2
    refine ⟨{ s with
              closed := true, finalAmount := fa, success := true,
              refundPool := s.total - fa },
            [.writeClosed, .writeFinalAmount, .writeSuccess,
             .transfer cfg.beneficiary fa, .writeRefundPool],
            ?_, rfl, rfl, rfl, rfl, ?_⟩
    · rw [finalize, if_neg (by simp), if_neg (by simp [hcl]),
        if_neg (by omega), if_neg (by omega)]
    · intro c fa₂ s'' acts₂ hok
      obtain ⟨_, hcl', _⟩ := finalize_ok_elim hok
      simp at hcl'

theorem C3_goal_enforcement_witness :
    sW.closed = false ∧
    finalize cfgW cfgW.creator 7 sW = .error .ExceedsTotal :=
  ⟨rfl, (C3_goal_enforcement cfgW sW 7 rfl).1 (by decide)⟩

/-- C3 counterexample: with goal 10 and aggregate total 5, `finalize(7)` by
the controller on the open instance has `finalAmount < goal`, yet it fails
with `ExceedsTotal`, not `BelowGoal`, because the `ExceedsTotal` check runs
first. -/
theorem C3_goal_enforcement_counterexample :
    (7 : Nat) < cfgW.goal ∧ sW.closed = false ∧ cfgW.goal ≤ sW.total + 5 ∧
    finalize cfgW cfgW.creator 7 sW = .error .ExceedsTotal ∧
    finalize cfgW cfgW.creator 7 sW ≠ .error .BelowGoal := by
  refine ⟨by decide, rfl, by decide, rfl, fun h => ?_⟩
  rw [show finalize cfgW cfgW.creator 7 sW = .error .ExceedsTotal from rfl] at h
  injection h with h2
  exact absurd h2 (by decide)

/-- C6 (amended): after a successful `finalize`, every subsequent `finalize`
call fails — with `AlreadyClosed` when the caller is the controller, and
with `NotCreator` for any other caller — and the failing call leaves the
state after the first call unchanged (in this embedding an erroring entry
point produces no state). -/
theorem C6_single_finalize {cfg : EscrowConfig} {sender fa : Nat}
    {s s' : EscrowState} {acts : List Act}
    (h : finalize cfg sender fa s = .ok (s', acts)) :
    (∀ fa₂, finalize cfg cfg.creator fa₂ s' = .error .AlreadyClosed) ∧
    (∀ c fa₂, c ≠ cfg.creator → finalize cfg c fa₂ s' = .error .NotCreator) := by
  obtain ⟨_, _, _, _, hs', _⟩ := finalize_ok_elim h
  subst hs'
  constructor
  · intro fa₂
    rw [finalize, if_neg (by simp), if_pos (by rfl)]
  · intro c fa₂ hc
    rw [finalize, if_pos hc]

theorem C6_single_finalize_witness :
    finalize cfgW cfgW.creator 11 sW3 = .error .AlreadyClosed ∧
    finalize cfgW 9 11 sW3 = .error .NotCreator := by
  have h := C6_single_finalize
    (show finalize cfgW 2 10 sW2 =
        .ok (sW3, [Act.writeClosed, Act.writeFinalAmount, Act.writeSuccess,
                   Act.transfer 3 10, Act.writeRefundPool]) from rfl)
  exact ⟨h.1 11, h.2 9 11 (by decide)⟩

/-- C6 counterexample: after the successful `finalize` producing `sW3`, a
second `finalize` from a non-controller address fails with `NotCreator`,
not `AlreadyClosed` (the caller check runs first), refuting "every
subsequent finalize call always fails with AlreadyClosed". -/
theorem C6_single_finalize_counterexample :
    finalize cfgW 2 10 sW2 =
      .ok (sW3, [Act.writeClosed, Act.writeFinalAmount, Act.writeSuccess,
                 Act.transfer 3 10, Act.writeRefundPool]) ∧
    finalize cfgW 9 10 sW3 = .error .NotCreator ∧
    EscrowError.NotCreator ≠ .AlreadyClosed :=
  ⟨rfl, rfl, by decide⟩

/-- C8: `contribute(amount)` fails with `AlreadyClosed` when closed;
otherwise with `PastDeadline` when `now > deadline`; otherwise with
`InvalidParams` when `amount = 0`; otherwise with `BelowMinimum` when the
minimum floor is non-zero and `amount` is below it; otherwise — including
`amount` exactly at the minimum and `now` exactly at the deadline — it
succeeds, adding `amount` to the caller's deposit and to `total`. -/
theorem C8_contribute_behavior (cfg : EscrowConfig)
    (sender now amount : Nat) (s : EscrowState) :
    (s.closed = true →
       contribute cfg sender now amount s = .error .AlreadyClosed) ∧
    (s.closed = false → cfg.deadline < now →
       contribute cfg sender now amount s = .error .PastDeadline) ∧
    (s.closed = false → now ≤ cfg.deadline → amount = 0 →
       contribute cfg sender now amount s = .error .InvalidParams) ∧
    (s.closed = false → now ≤ cfg.deadline → 0 < amount →
       0 < cfg.minContribution → amount < cfg.minContribution →
       contribute cfg sender now amount s = .error .BelowMinimum) ∧
    (s.closed = false → now ≤ cfg.deadline → 0 < amount →
       (cfg.minContribution = 0 ∨ cfg.minContribution ≤ amount) →
       contribute cfg sender now amount s =
         .ok ({ s with
                deposits := upd s.deposits sender (s.deposits sender + amount),
                total := s.total + amount },
              [.transferFrom sender amount, .writeDeposits, .writeTotal])) := by
  refine ⟨?_, ?_, ?_, ?_, ?_⟩
  · intro h1; rw [contribute, if_pos h1]
  · intro h1 h2; rw [contribute, if_neg (by simp [h1]), if_pos h2]
  · intro h1 h2 h3
    rw [contribute, if_neg (by simp [h1]), if_neg (by omega), if_pos h3]
  · intro h1 h2 h3 h4 h5
    rw [contribute, if_neg (by simp [h1]), if_neg (by omega),
      if_neg (by omega), if_pos ⟨h4, h5⟩]
  · intro h1 h2 h3 h4
    rw [contribute, if_neg (by simp [h1]), if_neg (by omega),
      if_neg (by omega), if_neg (by omega)]

theorem C8_contribute_behavior_witness :
    contribute cfgM 7 100 5 sM0 =
      .ok ({ sM0 with
             deposits := upd sM0.deposits 7 (sM0.deposits 7 + 5),
             total := sM0.total + 5 },
           [Act.transferFrom 7 5, Act.writeDeposits, Act.writeTotal]) ∧
    contribute cfgM 7 100 0 sM0 = .error .InvalidParams ∧
    contribute cfgM 7 100 4 sM0 = .error .BelowMinimum ∧
    contribute cfgM 7 101 5 sM0 = .error .PastDeadline :=
  ⟨(C8_contribute_behavior cfgM 7 100 5 sM0).2.2.2.2 rfl (by decide)
     (by decide) (by decide),
   (C8_contribute_behavior cfgM 7 100 0 sM0).2.2.1 rfl (by decide) rfl,
   (C8_contribute_behavior cfgM 7 100 4 sM0).2.2.2.1 rfl (by decide)
     (by decide) (by decide) (by decide),
   (C8_contribute_behavior cfgM 7 101 5 sM0).2.1 rfl (by decide)⟩

/-- C4: on a reachable finalized instance with refund pool `R = refundPool`
and aggregate `T = total`, a successful `claimRefund` by a contributor with
deposit `d` marks the claim consumed and transfers exactly
`⌊d * R / T⌋` — emitting no transfer at all when that value is 0 — and for
every duplicate-free set of contributors the sum of the computed refunds is
at most `R`. -/
theorem C4_proportional_refund {cfg : EscrowConfig} {s : EscrowState}
    (hreach : Reachable cfg s) :
    (∀ sender s' acts, claimRefund sender s = .ok (s', acts) →
       s'.refundClaimed sender = true ∧
       acts = Act.writeRefundClaimed ::
         (if 0 < s.deposits sender * s.refundPool / s.total then
            [Act.transfer sender
               (s.deposits sender * s.refundPool / s.total)]
          else [])) ∧
    (∀ l : List Addr, l.Nodup →
       (l.map (fun a => s.deposits a * s.refundPool / s.total)).sum
         ≤ s.refundPool) := by
  constructor
  · intro sender s' acts h
    obtain ⟨_, _, _, _, hs', hacts⟩ := claimRefund_ok_elim h
    subst hs'
    refine ⟨by simp [upd], ?_⟩
    rw [hacts, claimAmount_eq]
  · intro l hnd
    obtain ⟨_, l₀, hnd₀, hcov₀, hsum₀⟩ := reachable_inv hreach
    have h1 : (l.map (fun a => s.deposits a * s.refundPool / s.total)).sum
        = ((l.map s.deposits).map
            (fun d => d * s.refundPool / s.total)).sum := by
      rw [List.map_map]
      rfl
    rw [h1]
    have h3 : (l.map s.deposits).sum ≤ s.total := by
      rw [hsum₀]
      exact sum_le_cover s.deposits l l₀ hnd hnd₀ hcov₀
    calc ((l.map s.deposits).map (fun d => d * s.refundPool / s.total)).sum
        ≤ (l.map s.deposits).sum * s.refundPool / s.total :=
          sum_div_le (l.map s.deposits) s.refundPool s.total
      _ ≤ s.total * s.refundPool / s.total :=
          Nat.div_le_div_right (Nat.mul_le_mul_right _ h3)
      _ ≤ s.refundPool := by
          rcases Nat.eq_zero_or_pos s.total with hT | hT
          · simp [hT]
          · exact le_of_eq (Nat.mul_div_cancel_left _ hT)

theorem C4_proportional_refund_witness :
    ([2, 4].map (fun a => sW3.deposits a * sW3.refundPool / sW3.total)).sum
      ≤ sW3.refundPool ∧
    sW4.refundClaimed 4 = true :=
  ⟨(C4_proportional_refund sW3_reachable).2 [2, 4] (by decide),
   ((C4_proportional_refund sW3_reachable).1 4 sW4
      [Act.writeRefundClaimed, Act.transfer 4 3] rfl).1⟩

/-- C9: for the discovery directory (`ProjectRegistry`), from any reachable
registry storage: `createProject` fails exactly when the escrow address is
zero and otherwise assigns id `nextId + 1` (so ids are sequential from 1,
`registryInit` having `nextId = 0`) and stores the entry; `getProject` fails
with "not found" for id 0 and for every unassigned id; and for every
registered id, in every storage reachable from the registration,
`getProject` returns exactly the entry stored at registration. -/
theorem C9_registry {st : RegistryState} (hst : RegistryReachable st) :
    (∀ sender ensName metaURI,
       createProject sender ensName 0 metaURI st = .error "escrow=0") ∧
    (∀ sender ensName escrow metaURI, escrow ≠ 0 →
       createProject sender ensName escrow metaURI st =
         .ok (st.nextId + 1,
              { nextId := st.nextId + 1,
                projects := upd st.projects (st.nextId + 1)
                  ⟨sender, escrow, ensName, metaURI⟩ })) ∧
    getProject 0 st = .error "not found" ∧
    (∀ i, st.nextId < i → getProject i st = .error "not found") ∧
    (∀ sender ensName escrow metaURI id st₁ st₂,
       createProject sender ensName escrow metaURI st = .ok (id, st₁) →
       RegistryReaches st₁ st₂ →
       getProject id st₂ = .ok ⟨sender, escrow, ensName, metaURI⟩) := by
  refine ⟨?_, ?_, ?_, ?_, ?_⟩
  · intro sender n m
    rw [createProject, if_pos rfl]
  · intro sender n e m he
    rw [createProject, if_neg he]
  · have h0 := registryReachable_unset hst 0 (Or.inl rfl)
    rw [getProject, if_pos h0]
  · intro i hi
    have h0 := registryReachable_unset hst i (Or.inr hi)
    rw [getProject, if_pos h0]
  · intro sender n e m id st₁ st₂ hc hr
    obtain ⟨hne, hid, hst₁⟩ := createProject_ok_elim hc
    subst hid
    subst hst₁
    have hpres := (registryReaches_mono hr).2 (st.nextId + 1) (le_refl _)
    have hentry : st₂.projects (st.nextId + 1) = ⟨sender, e, n, m⟩ := by
      rw [hpres]
      show upd st.projects (st.nextId + 1) ⟨sender, e, n, m⟩
        (st.nextId + 1) = _
      simp [upd]
    rw [getProject, hentry, if_neg (by simpa using hne)]

theorem C9_registry_witness :
    createProject 5 "acme" 9 "uri" registryInit =
      .ok (1, { nextId := 1,
                projects := upd registryInit.projects 1 ⟨5, 9, "acme", "uri"⟩ }) ∧
    getProject 0 registryInit = .error "not found" :=
  ⟨(C9_registry registryInit_reachable).2.1 5 "acme" 9 "uri" (by decide),
   (C9_registry registryInit_reachable).2.2.1⟩
